import Mathlib

/-!
Verification of the NEONFLOW rhythm-game core: data model, onset detector,
procedural beatmap generator and real-time judgment engine.

The definitions below are a shallow embedding of the TypeScript sources:
  * `src/types.ts`                — data model
  * `src/utils/audioAnalyzer.ts`  — onset detection (pure energy-list part)
  * `src/utils/beatmapGenerator.ts` — generator, fallback, difficulty rating
  * the game-canvas component     — judgment engine (processHit, game loop)

Numbers are embedded as exact rationals (`ℚ`); the difficulty-rating
compression uses `Real.logb` for `Math.log2`.  JavaScript's global
`Math.random()` is embedded as an explicit stream `rng : ℕ → ℚ` together
with a call counter, threaded exactly where the source calls it
(respecting `&&`/`||` short-circuit evaluation, which decides whether a
call happens at all).  All theorems quantify over the stream, so they
hold for every sequence of random draws.
-/

/-- Type `Onset` from `src/types.ts`: a detected rhythmic event. -/
structure Onset where
  time : ℚ
  energy : ℚ
  isLowFreq : Bool
deriving DecidableEq, Inhabited

/-- Section style tag from `src/types.ts` (`SectionInfo.style`). -/
inductive SectionStyle
  | stream
  | jump
  | hold
  | simple
deriving DecidableEq, Inhabited

/-- Section type tag from `src/types.ts` (`SectionInfo.type`). -/
inductive SectionType
  | intro
  | verse
  | chorus
  | build
  | drop
  | outro
deriving DecidableEq, Inhabited

/-- Type `SectionInfo` from `src/types.ts`. -/
structure SectionInfo where
  startTime : ℚ
  endTime : ℚ
  type : SectionType
  intensity : ℚ
  style : SectionStyle
deriving DecidableEq, Inhabited

/-- Type `SongStructure` from `src/types.ts`. -/
structure SongStructure where
  bpm : ℚ
  sections : List SectionInfo
deriving DecidableEq, Inhabited

/-- Type `BeatmapDifficulty` from `src/types.ts`. -/
inductive BeatmapDifficulty
  | Easy
  | Normal
  | Hard
  | Expert
  | Titan
deriving DecidableEq, Inhabited

/-- Type `PlayStyle` from `src/types.ts`. -/
inductive PlayStyle
  | THUMB
  | MULTI
deriving DecidableEq, Inhabited

/-- Type `NoteType` from `src/types.ts`. -/
inductive NoteType
  | NORMAL
  | CATCH
deriving DecidableEq, Inhabited

/-- Type `Note` from `src/types.ts`; `lane` is embedded as `ℕ` (the `NoteLane`
enum is the integers 0..5). -/
structure Note where
  time : ℚ
  lane : ℕ
  id : String
  hit : Bool
  visible : Bool
  duration : ℚ
  isHolding : Bool
  type : NoteType
deriving DecidableEq, Inhabited

/-- Type `ScoreState` from `src/types.ts`; the score itself is a rational
because tap scores are scaled by the fractional combo multiplier. -/
structure ScoreState where
  score : ℚ
  combo : ℕ
  maxCombo : ℕ
  perfect : ℕ
  good : ℕ
  miss : ℕ
deriving DecidableEq, Inhabited

/-- One entry of `DIFFICULTY_CONFIG` in `src/utils/beatmapGenerator.ts`. -/
structure GenConfig where
  thresholdMultiplier : ℚ
  minGap : ℚ
  streamChance : ℚ
  holdChance : ℚ
  jumpChance : ℚ
deriving DecidableEq, Inhabited

/-- The `DIFFICULTY_CONFIG` lookup table of `src/utils/beatmapGenerator.ts`. -/
def DIFFICULTY_CONFIG : BeatmapDifficulty → GenConfig
  | .Easy => ⟨2.0, 0.45, 0.0, 0.0, 0.0⟩
  | .Normal => ⟨1.4, 0.25, 0.0, 0.15, 0.0⟩
  | .Hard => ⟨1.0, 0.15, 0.2, 0.25, 0.15⟩
  | .Expert => ⟨0.8, 0.08, 0.5, 0.3, 0.35⟩
  | .Titan => ⟨0.6, 0.05, 0.8, 0.2, 0.7⟩

/-- Index draw `Math.floor(r * len)` used to index an array by a random draw. -/
def randIndex (r : ℚ) (len : ℕ) : ℕ :=
  (Rat.floor (r * len)).toNat

/-- Array-element swap `[pool[i], pool[j]] = [pool[j], pool[i]]`. -/
def listSwap (l : List ℕ) (a b : ℕ) : List ℕ :=
  (l.set a (l.getD b 0)).set b (l.getD a 0)

/-- The Fisher-Yates shuffle loop of `getNextLanes`
(`for (let i = pool.length - 1; i > 0; i--) ...`), recursing on the loop
counter `i`; returns the shuffled pool and the next random index. -/
def fyShuffleGo (rng : ℕ → ℚ) : List ℕ → ℕ → ℕ → List ℕ × ℕ
  | l, idx, 0 => (l, idx)
  | l, idx, k + 1 =>
    fyShuffleGo rng (listSwap l (k + 1) (randIndex (rng idx) (k + 2))) (idx + 1) k

/-- Function `getNextLanes` from `src/utils/beatmapGenerator.ts` (lane patterning).
The trailing `.sort((a,b) => a-b)` of the source is applied to both
branches. -/
def getNextLanes (rng : ℕ → ℚ) (count : ℕ) (lastLanes : List ℕ) (laneCount : ℕ)
    (style : SectionStyle) (idx : ℕ) : List ℕ × ℕ :=
  let allLanes := List.range laneCount
  let pair : List ℕ × ℕ :=
    if count = 1 then
      let last := lastLanes.getD 0 0
      if style = SectionStyle.stream then
        let candidates := allLanes.filter fun l =>
          1 ≤ Nat.dist l last ∧ Nat.dist l last ≤ 2
        if candidates.length > 0 then
          ([candidates.getD (randIndex (rng idx) candidates.length) 0], idx + 1)
        else
          ([(last + 1) % laneCount], idx)
      else
        let candidates := allLanes.filter fun l => l ∉ lastLanes
        if candidates.length > 0 then
          ([candidates.getD (randIndex (rng idx) candidates.length) 0], idx + 1)
        else
          ([randIndex (rng idx) laneCount], idx + 1)
    else
      let candidates := allLanes.filter fun l => l ∉ lastLanes
      let pool := if candidates.length ≥ count then candidates else allLanes
      let sh := fyShuffleGo rng pool idx (pool.length - 1)
      (sh.1.take count, sh.2)
  (List.insertionSort (· ≤ ·) pair.1, pair.2)

/-- Accumulator of the per-onset loop of `runGenerationPass`: emitted notes,
`lastLanes`, `lastTime`, and the number of random draws consumed so far. -/
structure GenState where
  notes : List Note
  lastLanes : List ℕ
  lastTime : ℚ
  idx : ℕ
deriving DecidableEq

/-- Placeholder used for `structure.sections[structure.sections.length - 1]`
on an empty section list (where the JavaScript would fault). -/
def defaultSection : SectionInfo :=
  ⟨0, 0, SectionType.intro, 0, SectionStyle.stream⟩

/-- The chord-size decision of the `runGenerationPass` loop body
(`allowJump` / `simNotes`, lines 159-177), with the random draws of
`style === 'jump' || Math.random() < config.jumpChance` and
`isTitan && Math.random() > 0.4` consumed exactly as the JavaScript
short-circuits do; returns the chord size and the next random index. -/
def chordSize (config : GenConfig) (laneCount : ℕ) (playStyle : PlayStyle)
    (difficulty : BeatmapDifficulty) (rng : ℕ → ℚ) (currentSection : SectionInfo)
    (o : Onset) (idx : ℕ) : ℕ × ℕ :=
  let isTitan := difficulty = BeatmapDifficulty.Titan
  let orJump : Bool × ℕ :=
    if currentSection.style = SectionStyle.jump then (true, idx)
    else (decide (rng idx < config.jumpChance), idx + 1)
  let allowJump := orJump.1 && decide (currentSection.intensity > 0.6)
  let idx1 := orJump.2
  if allowJump && decide (o.energy > 0.75) then
    if (isTitan ∨ (playStyle = PlayStyle.MULTI ∧ laneCount = 6)) ∧ o.energy > 0.9 then
      if isTitan then
        if rng idx1 > 0.4 then
          if o.energy > 0.98 then (4, idx1 + 1) else (3, idx1 + 1)
        else if config.jumpChance > 0.3 then (3, idx1 + 1) else (2, idx1 + 1)
      else if config.jumpChance > 0.3 then (3, idx1) else (2, idx1)
    else (2, idx1)
  else (1, idx1)

/-- The hold-assignment roll of the `runGenerationPass` loop body
(lines 186-193): in `hold`-style sections a `holdChance` roll turns a
single note into a hold whose duration is one beat clamped into a
difficulty-appropriate range; returns `(isHold, duration, next index)`. -/
def holdDraw (st : SongStructure) (config : GenConfig) (rng : ℕ → ℚ)
    (currentSection : SectionInfo) (simNotes idx : ℕ) : Bool × ℚ × ℕ :=
  if currentSection.style = SectionStyle.hold then
    if rng idx < config.holdChance ∧ simNotes = 1 then
      let maxHold : ℚ := if config.minGap > 0.2 then 0.5 else 1.0
      (true, min maxHold (max 0.1 (60 / st.bpm)), idx + 1)
    else (false, 0, idx + 1)
  else (false, 0, idx)

/-- The catch-assignment roll of the `runGenerationPass` loop body
(lines 195-202): a small fraction (0.2 in `stream` sections, else 0.05) of
single non-hold notes become CATCH; returns `(isCatch, next index)`. -/
def catchDraw (rng : ℕ → ℚ) (currentSection : SectionInfo) (isHold : Bool)
    (simNotes idx : ℕ) : Bool × ℕ :=
  let catchChance : ℚ :=
    if currentSection.style = SectionStyle.stream then 0.2 else 0.05
  if ¬isHold ∧ simNotes = 1 then (decide (rng idx < catchChance), idx + 1)
  else (false, idx)

/-- The accepted-onset tail of the `onsets.forEach` loop body of
`runGenerationPass` (chord sizing, lane patterning, hold and catch
assignment, note emission), split out from `genStep` so that the placement
can be reasoned about separately from the threshold/min-gap guards. -/
def genPlace (st : SongStructure) (config : GenConfig) (laneCount : ℕ)
    (playStyle : PlayStyle) (difficulty : BeatmapDifficulty) (rng : ℕ → ℚ)
    (currentSection : SectionInfo) (s : GenState) (o : Onset) : GenState :=
  let isTitan := difficulty = BeatmapDifficulty.Titan
  let simPair := chordSize config laneCount playStyle difficulty rng currentSection o s.idx
  let simNotes := if playStyle = PlayStyle.THUMB ∧ ¬isTitan then min simPair.1 2 else simPair.1
  let lanesPair := getNextLanes rng simNotes s.lastLanes laneCount currentSection.style simPair.2
  let lanes := lanesPair.1
  let holdT := holdDraw st config rng currentSection simNotes lanesPair.2
  let isHold := holdT.1
  let duration := holdT.2.1
  let catchT := catchDraw rng currentSection isHold simNotes holdT.2.2
  let isCatch := catchT.1
  let newNotes := lanes.map fun lane =>
    { time := o.time
      lane := lane
      id := "note-" ++ toString o.time ++ "-" ++ toString lane
      hit := false
      visible := true
      duration := if isHold then duration else 0
      isHolding := false
      type := if isCatch then NoteType.CATCH else NoteType.NORMAL : Note }
  { notes := s.notes ++ newNotes
    lastLanes := lanes
    lastTime := o.time + (if isHold then duration else 0)
    idx := catchT.2 }

/-- Body of the `onsets.forEach` loop of `runGenerationPass` in
`src/utils/beatmapGenerator.ts` (lines 147-219): locate the active
section, compute the dynamic energy threshold, skip the onset when it is
too quiet or too close to the last placed note, otherwise place notes via
`genPlace`. -/
def genStep (st : SongStructure) (config : GenConfig) (laneCount : ℕ)
    (playStyle : PlayStyle) (difficulty : BeatmapDifficulty) (rng : ℕ → ℚ)
    (s : GenState) (o : Onset) : GenState :=
  let currentSection :=
    (st.sections.find? fun sec =>
      decide (o.time ≥ sec.startTime ∧ o.time < sec.endTime)).getD
      (st.sections.getLastD defaultSection)
  let baseThreshold : ℚ := 0.05 + (1.0 - currentSection.intensity) * 0.25
  let dynamicThreshold0 := baseThreshold * config.thresholdMultiplier
  let dynamicThreshold :=
    if currentSection.style = SectionStyle.simple then dynamicThreshold0 * 1.3
    else dynamicThreshold0
  if o.energy < dynamicThreshold then s
  else if o.time - s.lastTime < config.minGap then s
  else genPlace st config laneCount playStyle difficulty rng currentSection s o

/-- Function `runGenerationPass` from `src/utils/beatmapGenerator.ts`; also returns
the number of random draws consumed, so that the retry pass of
`generateBeatmap` continues on the same stream. -/
def runGenerationPass (onsets : List Onset) (st : SongStructure) (config : GenConfig)
    (laneCount : ℕ) (playStyle : PlayStyle) (difficulty : BeatmapDifficulty)
    (rng : ℕ → ℚ) (idx : ℕ) : List Note × ℕ :=
  let final := onsets.foldl (genStep st config laneCount playStyle difficulty rng)
    ⟨[], [laneCount / 2], -10, idx⟩
  (final.notes, final.idx)

/-- Function `generateRawFallback` from `src/utils/beatmapGenerator.ts`: every onset
with energy above 0.1 becomes a NORMAL tap in round-robin lanes. -/
def generateRawFallback (onsets : List Onset) (laneCount : ℕ) : List Note :=
  (onsets.filter fun o => decide (o.energy > 0.1)).enum.map fun p =>
    { id := "fallback-" ++ toString p.1
      time := p.2.time
      lane := p.1 % laneCount
      hit := false
      visible := true
      duration := 0
      isHolding := false
      type := NoteType.NORMAL : Note }

/-- The `onsets.sort((a, b) => a.time - b.time)` of `generateBeatmap`
(a stable ascending sort by time). -/
def sortOnsets (onsets : List Onset) : List Onset :=
  List.insertionSort (fun a b : Onset => a.time ≤ b.time) onsets

/-- Function `generateBeatmap` from `src/utils/beatmapGenerator.ts` (lines 101-133):
main pass, low-threshold retry for sparse non-Easy charts, raw fallback. -/
def generateBeatmap (onsets : List Onset) (st : SongStructure)
    (difficulty : BeatmapDifficulty) (laneCount : ℕ) (playStyle : PlayStyle)
    (rng : ℕ → ℚ) : List Note :=
  let effectiveLaneCount := if difficulty = BeatmapDifficulty.Titan then 6 else laneCount
  let effectivePlayStyle := if difficulty = BeatmapDifficulty.Titan then PlayStyle.MULTI else playStyle
  let sortedOnsets := sortOnsets onsets
  let config := DIFFICULTY_CONFIG difficulty
  let pass1 := runGenerationPass sortedOnsets st config effectiveLaneCount
    effectivePlayStyle difficulty rng 0
  let notes :=
    if pass1.1.length < 30 ∧ difficulty ≠ BeatmapDifficulty.Easy then
      (runGenerationPass sortedOnsets st
        { config with thresholdMultiplier := config.thresholdMultiplier * 0.7 }
        effectiveLaneCount effectivePlayStyle difficulty rng pass1.2).1
    else pass1.1
  if notes.length = 0 ∧ sortedOnsets.length > 0 then
    generateRawFallback sortedOnsets effectiveLaneCount
  else notes

/-- Function `calculateMovingAverage` from `src/utils/audioAnalyzer.ts`: centred
moving average with half-window `Math.floor(windowSize / 2)`, used as the
adaptive onset threshold. -/
def calculateMovingAverage (data : List ℚ) (windowSize : ℚ) : List ℚ :=
  let halfWindow := (Rat.floor (windowSize / 2)).toNat
  (List.range data.length).map fun i =>
    let start := i - halfWindow
    let stop := min data.length (i + halfWindow)
    let sum := ((data.drop start).take (stop - start)).sum
    sum / ((stop : ℚ) - (start : ℚ))

/-- The onset-detection loop of `analyzeAudioDSP` in
`src/utils/audioAnalyzer.ts` (lines 82-121), taken as a pure function of
the two per-frame RMS energy lists (the code computes those lists from the
decoded PCM immediately above the loop). -/
def detectOnsets (lowEnergies fullEnergies : List ℚ) : List Onset :=
  let frameRate : ℚ := 60
  let localWindow : ℚ := 0.5 * frameRate
  let lowThresholds := calculateMovingAverage lowEnergies localWindow
  let fullThresholds := calculateMovingAverage fullEnergies localWindow
  let minGap : ℚ := 0.05
  let silenceThreshold : ℚ := 0.01
  ((List.range lowEnergies.length).foldl (fun (acc : ℚ × List Onset) (i : ℕ) =>
    let time := (i : ℚ) / frameRate
    if time - acc.1 < minGap then acc
    else
      let lowR := lowEnergies.getD i 0 / (lowThresholds.getD i 0 + 0.00001)
      let fullR := fullEnergies.getD i 0 / (fullThresholds.getD i 0 + 0.00001)
      let absLow := lowEnergies.getD i 0
      let absFull := fullEnergies.getD i 0
      let isLowHit := lowR > 1.05 ∧ absLow > silenceThreshold
      let isFullHit := fullR > 1.1 ∧ absFull > silenceThreshold
      if isLowHit ∨ isFullHit then
        (time, acc.2 ++ [{ time := time
                           energy := min 1 (max absLow absFull * 5)
                           isLowFreq := decide isLowHit && decide (lowR > fullR) }])
      else acc) (-1, [])).2

/-- Judgment-engine timing window: `HIT_WINDOW_PERFECT` (50 ms). -/
def HIT_WINDOW_PERFECT : ℚ := 0.050

/-- Judgment-engine timing window: `HIT_WINDOW_GOOD` (120 ms). -/
def HIT_WINDOW_GOOD : ℚ := 0.120

/-- Judgment-engine timing window: `HIT_WINDOW_CATCH` (100 ms). -/
def HIT_WINDOW_CATCH : ℚ := 0.100

/-- Base score of a PERFECT tap. -/
def SCORE_BASE_PERFECT : ℚ := 1000

/-- Base score of a GOOD tap. -/
def SCORE_BASE_GOOD : ℚ := 500

/-- Per-frame hold accrual base. -/
def SCORE_HOLD_TICK : ℚ := 20

/-- Delay between session start and audio playback start. -/
def LEAD_IN_TIME : ℚ := 2.0

/-- The lane-count inference of the game canvas's session-start effect
(`const maxLaneIndex = notes.reduce((max, n) => Math.max(max, n.lane), 0);
const count = maxLaneIndex > 3 ? 6 : 4;`). -/
def inferLaneCount (notes : List Note) : ℕ :=
  if notes.foldl (fun m n => max m n.lane) 0 > 3 then 6 else 4

/-- Initialization `new Array(count).fill(false)`: the per-lane key/held state at session
start. -/
def initKeyState (count : ℕ) : List Bool :=
  List.replicate count false

/-- The predicate of `notesRef.current.find(...)` in `processHit`: an
unresolved NORMAL note in the pressed lane whose time is strictly within
the GOOD window of the current game time. -/
def hitPred (gameTime : ℚ) (lane : ℕ) (n : Note) : Bool :=
  decide (n.hit = false ∧ n.lane = lane ∧ n.type = NoteType.NORMAL ∧
    |gameTime - n.time| < HIT_WINDOW_GOOD)

/-- Mutation applied to the found note in `processHit`: mark hit; holds
start holding, taps disappear. -/
def markHit (n : Note) : Note :=
  if n.duration > 0 then { n with hit := true, isHolding := true }
  else { n with hit := true, visible := false }

/-- In-place update of the first note matched by `notesRef.current.find`
(the JavaScript mutates the found array element through the reference). -/
def markFirstHit (gameTime : ℚ) (lane : ℕ) : List Note → List Note
  | [] => []
  | n :: rest =>
    if hitPred gameTime lane n then markHit n :: rest
    else n :: markFirstHit gameTime lane rest

/-- Function `processHit` from the game canvas (lines 959-1015): resolve a press in
`lane` at `gameTime` against the session's notes and score state.  The
perfect/good counter is bumped first, then the note is marked, then combo,
maxCombo and score are updated with the already-incremented combo. -/
def processHit (gameTime : ℚ) (lane : ℕ) (notes : List Note) (s : ScoreState) :
    List Note × ScoreState :=
  match notes.find? (hitPred gameTime lane) with
  | none => (notes, s)
  | some hitNote =>
    let isPerfect := |gameTime - hitNote.time| < HIT_WINDOW_PERFECT
    let baseScore := if isPerfect then SCORE_BASE_PERFECT else SCORE_BASE_GOOD
    let s1 := if isPerfect then { s with perfect := s.perfect + 1 }
              else { s with good := s.good + 1 }
    let combo := s1.combo + 1
    ( markFirstHit gameTime lane notes,
      { s1 with
        combo := combo
        maxCombo := max s1.maxCombo combo
        score := s1.score + baseScore * (1 + (min combo 100 : ℚ) / 50) } )

/-- Function `processRelease` from the game canvas: stop holding the first note in
this lane that is currently being held. -/
def processRelease (lane : ℕ) : List Note → List Note
  | [] => []
  | n :: rest =>
    if n.lane = lane ∧ n.isHolding = true then { n with isHolding := false } :: rest
    else n :: processRelease lane rest

/-- The CATCH auto-hit block of the game-loop note pass (lines 1189-1205):
an unresolved CATCH note whose lane is currently held within
`HIT_WINDOW_CATCH` of its time auto-resolves as PERFECT.  `keyState` is
the per-lane held array; an out-of-range lane reads the JavaScript
`undefined`, i.e. not held. -/
def catchPhase (gameTime : ℚ) (keyState : List Bool) (p : Note × ScoreState) :
    Note × ScoreState :=
  if p.1.type = NoteType.CATCH ∧ p.1.hit = false ∧
      |gameTime - p.1.time| ≤ HIT_WINDOW_CATCH ∧ keyState.getD p.1.lane false = true then
    ( { p.1 with hit := true, visible := false },
      { p.2 with
        perfect := p.2.perfect + 1
        combo := p.2.combo + 1
        maxCombo := max p.2.maxCombo (p.2.combo + 1)
        score := p.2.score + SCORE_BASE_PERFECT * (1 + (min (p.2.combo + 1) 100 : ℚ) / 50) } )
  else p

/-- The MISS block of the game-loop note pass (lines 1207-1224): an
unresolved note past `note.time + HIT_WINDOW_GOOD` is hidden, tombstoned
with `hit := true`, the miss counter is incremented and the combo reset. -/
def missPhase (gameTime : ℚ) (p : Note × ScoreState) : Note × ScoreState :=
  if p.1.hit = false ∧ gameTime > p.1.time + HIT_WINDOW_GOOD then
    ( { p.1 with visible := false, hit := true },
      { p.2 with miss := p.2.miss + 1, combo := 0 } )
  else p

/-- The HOLD-tick block of the game-loop note pass (lines 1226-1240): a
held hold note before its end time accrues
`SCORE_HOLD_TICK * (1 + min(combo, 100)/100)`; past its end time it
completes and is hidden. -/
def holdPhase (gameTime : ℚ) (p : Note × ScoreState) : Note × ScoreState :=
  if p.1.hit = true ∧ p.1.duration > 0 ∧ p.1.isHolding = true then
    if gameTime < p.1.time + p.1.duration then
      ( p.1,
        { p.2 with
          score := p.2.score + SCORE_HOLD_TICK * (1 + (min p.2.combo 100 : ℚ) / 100) } )
    else ({ p.1 with visible := false, isHolding := false }, p.2)
  else p

/-- Body of the `notesRef.current.forEach(note => ...)` pass of the game
loop (lines 1186-1240), without the drawing: invisible notes are skipped,
then CATCH auto-hit, MISS resolution and the HOLD tick run in source order
on the note and the running score state. -/
def gameLoopNoteStep (gameTime : ℚ) (keyState : List Bool) (n : Note)
    (s : ScoreState) : Note × ScoreState :=
  if n.visible = false then (n, s)
  else holdPhase gameTime (missPhase gameTime (catchPhase gameTime keyState (n, s)))

/-- One whole per-frame pass of the game loop over the session's notes,
threading the score state left to right as the `forEach` does. -/
def gameLoopNotes (gameTime : ℚ) (keyState : List Bool) :
    List Note → ScoreState → List Note × ScoreState
  | [], s => ([], s)
  | n :: rest, s =>
    let p := gameLoopNoteStep gameTime keyState n s
    let q := gameLoopNotes gameTime keyState rest p.2
    (p.1 :: q.1, q.2)

/-- The `while (sortedNotes[right].time - sortedNotes[left].time > 1.0)
left++;` loop of `calculateDifficultyRating`, with fuel to make the
recursion structural (the loop always stops at `left = right` on a sorted
list, so any fuel of at least the list length is faithful). -/
def slideLeft (ts : List ℚ) (tRight : ℚ) : ℕ → ℕ → ℕ
  | 0, left => left
  | fuel + 1, left =>
    if tRight - ts.getD left 0 > 1 then slideLeft ts tRight fuel (left + 1)
    else left

/-- The peak-density scan of `calculateDifficultyRating`: the densest
1-second sliding window note count over the time-sorted list. -/
def maxWindowNotes (ts : List ℚ) : ℕ :=
  ((List.range ts.length).foldl (fun (acc : ℕ × ℕ) right =>
    let left := slideLeft ts (ts.getD right 0) ts.length acc.1
    (left, max acc.2 (right - left + 1))) (0, 0)).2

/-- The raw weighted sum of `calculateDifficultyRating`:
`avgNps * 0.5 + peakNps * 0.05`. -/
def ratingRaw (notes : List Note) (duration : ℚ) : ℚ :=
  let avgNps : ℚ := (notes.length : ℚ) / duration
  let sorted := List.insertionSort (fun a b : Note => a.time ≤ b.time) notes
  let peakNps : ℚ := (maxWindowNotes (sorted.map Note.time) : ℚ)
  avgNps * 0.5 + peakNps * 0.05

/-- The logarithmic compression step of `calculateDifficultyRating`:
beyond a raw sum of 10, `10 + Math.log2(surplus + 1) * 2.5`. -/
noncomputable def compressRating (raw : ℚ) : ℝ :=
  if raw > 10 then 10 + Real.logb 2 ((raw : ℝ) - 10 + 1) * 2.5 else (raw : ℝ)

/-- Function `calculateDifficultyRating` from `src/utils/beatmapGenerator.ts`
(lines 243-295): 0 for an empty chart or zero duration, otherwise the
compressed weighted sum clamped into [1, 20]. -/
noncomputable def calculateDifficultyRating (notes : List Note) (duration : ℚ) : ℝ :=
  if notes.length = 0 ∨ duration = 0 then 0
  else max 1 (min 20 (compressRating (ratingRaw notes duration)))

/-! ## Helper lemmas -/

lemma list_foldl_preserve {α β : Type} (P : α → Prop) (f : α → β → α)
    (l : List β) (init : α) (h0 : P init)
    (hf : ∀ a b, b ∈ l → P a → P (f a b)) : P (l.foldl f init) := by
  induction l generalizing init with
  | nil => exact h0
  | cons b t ih =>
    exact ih (f init b) (hf init b (by simp) h0)
      fun a c hc ha => hf a c (by simp [hc]) ha

lemma find?_eq_none_of_all {α : Type} (p : α → Bool) (l : List α)
    (h : ∀ m ∈ l, p m = false) : l.find? p = none := by
  rw [List.find?_eq_none]
  intro a ha
  simp [h a ha]

lemma markFirstHit_getD_of_pred_false (gameTime : ℚ) (lane : ℕ) (l : List Note)
    (i : ℕ) (h : hitPred gameTime lane (l.getD i default) = false) :
    (markFirstHit gameTime lane l).getD i default = l.getD i default := by
  induction l generalizing i with
  | nil => rfl
  | cons n rest ih =>
    rw [markFirstHit]
    by_cases hp : hitPred gameTime lane n
    · rw [if_pos hp]
      cases i with
      | zero => simp [List.getD] at h; rw [h] at hp; exact absurd hp (by simp)
      | succ j => simp [List.getD]
    · rw [if_neg hp]
      cases i with
      | zero => simp [List.getD]
      | succ j =>
        have := ih j (by simpa [List.getD] using h)
        simpa [List.getD] using this

lemma markFirstHit_eq_set (gameTime : ℚ) (lane : ℕ) (l : List Note) (n : Note)
    (h : l.find? (hitPred gameTime lane) = some n) :
    markFirstHit gameTime lane l = l.set (l.findIdx (hitPred gameTime lane)) (markHit n) := by
  induction l with
  | nil => simp at h
  | cons m rest ih =>
    rw [markFirstHit, List.findIdx_cons]
    by_cases hp : hitPred gameTime lane m
    · rw [List.find?_cons_of_pos _ hp] at h
      cases h
      simp [hp]
    · rw [List.find?_cons_of_neg _ hp] at h
      simp only [hp, if_neg, Bool.false_eq_true, if_false, cond_false]
      rw [List.set_cons_succ]
      rw [ih h]

/-! ## Claim theorems -/

/-- C4: on every press in lane `lane`, the engine resolves the first
unresolved NORMAL note in that lane with `|gameTime - note.time| <
HIT_WINDOW_GOOD` (0.12 s): PERFECT (base 1000) when the difference is
`< HIT_WINDOW_PERFECT` (0.05 s) and GOOD (base 500) otherwise; the note is
marked hit in place, combo is incremented, maxCombo is raised to the new
combo if exceeded, the matching counter is incremented, and
`base * (1 + min(combo, 100)/50)` is added to the score with the
already-incremented combo.  When no note matches, the press changes
nothing. -/
theorem processHit_tap_resolution (gameTime : ℚ) (lane : ℕ) (notes : List Note)
    (s : ScoreState) :
    (notes.find? (hitPred gameTime lane) = none →
      processHit gameTime lane notes s = (notes, s)) ∧
    ∀ n, notes.find? (hitPred gameTime lane) = some n →
      n.hit = false ∧ n.lane = lane ∧ n.type = NoteType.NORMAL ∧
      |gameTime - n.time| < HIT_WINDOW_GOOD ∧
      (markHit n).hit = true ∧
      (processHit gameTime lane notes s).1 =
        notes.set (notes.findIdx (hitPred gameTime lane)) (markHit n) ∧
      (processHit gameTime lane notes s).2.combo = s.combo + 1 ∧
      (processHit gameTime lane notes s).2.maxCombo = max s.maxCombo (s.combo + 1) ∧
      (processHit gameTime lane notes s).2.miss = s.miss ∧
      (|gameTime - n.time| < HIT_WINDOW_PERFECT →
        (processHit gameTime lane notes s).2.perfect = s.perfect + 1 ∧
        (processHit gameTime lane notes s).2.good = s.good ∧
        (processHit gameTime lane notes s).2.score =
          s.score + SCORE_BASE_PERFECT * (1 + (min (s.combo + 1) 100 : ℚ) / 50)) ∧
      (¬ |gameTime - n.time| < HIT_WINDOW_PERFECT →
        (processHit gameTime lane notes s).2.good = s.good + 1 ∧
        (processHit gameTime lane notes s).2.perfect = s.perfect ∧
        (processHit gameTime lane notes s).2.score =
          s.score + SCORE_BASE_GOOD * (1 + (min (s.combo + 1) 100 : ℚ) / 50)) := by
  constructor
  · intro hnone
    simp [processHit, hnone]
  · intro n hfind
    have hpred := List.find?_some hfind
    have hprops := of_decide_eq_true hpred
    obtain ⟨h1, h2, h3, h4⟩ := hprops
    refine ⟨h1, h2, h3, h4, ?_, ?_, ?_, ?_, ?_, ?_, ?_⟩
    · unfold markHit; split_ifs <;> rfl
    · simp only [processHit, hfind]
      exact markFirstHit_eq_set gameTime lane notes n hfind
    · simp only [processHit, hfind]
      split_ifs <;> rfl
    · simp only [processHit, hfind]
      split_ifs <;> rfl
    · simp only [processHit, hfind]
      split_ifs <;> rfl
    · intro hperf
      simp only [processHit, hfind]
      simp only [if_pos hperf]
      refine ⟨by trivial, by trivial, ?_⟩
      push_cast
      ring
    · intro hperf
      simp only [processHit, hfind]
      simp only [if_neg hperf]
      refine ⟨by trivial, by trivial, ?_⟩
      push_cast
      ring

/-- Witness for C4: pressing lane 0 at game time 1.03 against a tap note at
time 1 (difference 0.03 < 0.05) scores PERFECT with combo 1 and score
1000 * (1 + 1/50) = 1020. -/
theorem processHit_tap_resolution_witness :
    (processHit (103/100) 0 [⟨1, 0, "n", false, true, 0, false, NoteType.NORMAL⟩]
      ⟨0, 0, 0, 0, 0, 0⟩).2.perfect = 0 + 1 ∧
    (processHit (103/100) 0 [⟨1, 0, "n", false, true, 0, false, NoteType.NORMAL⟩]
      ⟨0, 0, 0, 0, 0, 0⟩).2.score = 0 + SCORE_BASE_PERFECT * (1 + (min (0 + 1) 100 : ℚ) / 50) := by
  have h := (processHit_tap_resolution (103/100) 0
    [⟨1, 0, "n", false, true, 0, false, NoteType.NORMAL⟩] ⟨0, 0, 0, 0, 0, 0⟩).2
    ⟨1, 0, "n", false, true, 0, false, NoteType.NORMAL⟩ (by with_unfolding_all decide)
  have hp := h.2.2.2.2.2.2.2.2.2.1 (by with_unfolding_all decide)
  exact ⟨hp.1, hp.2.2⟩

/-- C7: on any simulation step, an unresolved visible CATCH (tap-duration)
note whose lane is currently held and whose time is within
`HIT_WINDOW_CATCH` (0.1 s) of the game time is auto-resolved as PERFECT:
it is marked hit and hidden, the perfect counter, combo and maxCombo are
updated and `1000 * (1 + min(combo, 100)/50)` is added to the score — no
discrete press event is involved.  Conversely a discrete press
(`processHit`) never directly resolves a CATCH note: every CATCH entry of
the note list is returned unchanged. -/
theorem catch_auto_resolution (gameTime : ℚ) (keyState : List Bool) (n : Note)
    (s : ScoreState) :
    (n.type = NoteType.CATCH → n.hit = false → n.visible = true → n.duration = 0 →
      |gameTime - n.time| ≤ HIT_WINDOW_CATCH → keyState.getD n.lane false = true →
      gameLoopNoteStep gameTime keyState n s =
        ({ n with hit := true, visible := false },
         { s with
           perfect := s.perfect + 1
           combo := s.combo + 1
           maxCombo := max s.maxCombo (s.combo + 1)
           score := s.score + SCORE_BASE_PERFECT * (1 + (min (s.combo + 1) 100 : ℚ) / 50) })) ∧
    ∀ (lane : ℕ) (notes : List Note) (i : ℕ),
      (notes.getD i default).type = NoteType.CATCH →
      (processHit gameTime lane notes s).1.getD i default = notes.getD i default := by
  constructor
  · intro htype hhit hvis hdur hwin hkey
    unfold gameLoopNoteStep
    rw [if_neg (by simp [hvis])]
    unfold catchPhase
    rw [if_pos ⟨htype, hhit, hwin, hkey⟩]
    unfold missPhase
    rw [if_neg (by simp)]
    unfold holdPhase
    rw [if_neg (by simp [hdur])]
  · intro lane notes i htype
    have hpred : hitPred gameTime lane (notes.getD i default) = false := by
      unfold hitPred
      rw [decide_eq_false_iff_not]
      rintro ⟨-, -, hN, -⟩
      rw [htype] at hN
      exact absurd hN (by simp)
    cases hfind : notes.find? (hitPred gameTime lane) with
    | none => simp [processHit, hfind]
    | some m =>
      simp only [processHit, hfind]
      exact markFirstHit_getD_of_pred_false gameTime lane notes i hpred

/-- Witness for C7: a CATCH note at time 1 in lane 2, with lane 2 held at
game time 1.05, auto-resolves as PERFECT (perfect counter 1, combo 1);
and a press in lane 2 at the same moment leaves the CATCH note untouched. -/
theorem catch_auto_resolution_witness :
    gameLoopNoteStep (105/100) [false, false, true]
      ⟨1, 2, "c", false, true, 0, false, NoteType.CATCH⟩ ⟨0, 0, 0, 0, 0, 0⟩ =
      (⟨1, 2, "c", true, false, 0, false, NoteType.CATCH⟩,
       ⟨0 + SCORE_BASE_PERFECT * (1 + (min (0 + 1) 100 : ℚ) / 50), 0 + 1, max 0 (0 + 1), 0 + 1, 0, 0⟩) ∧
    (processHit (105/100) 2 [⟨1, 2, "c", false, true, 0, false, NoteType.CATCH⟩]
      ⟨0, 0, 0, 0, 0, 0⟩).1.getD 0 default =
      ([⟨1, 2, "c", false, true, 0, false, NoteType.CATCH⟩] : List Note).getD 0 default := by
  constructor
  · exact (catch_auto_resolution (105/100) [false, false, true]
      ⟨1, 2, "c", false, true, 0, false, NoteType.CATCH⟩ ⟨0, 0, 0, 0, 0, 0⟩).1
      rfl rfl rfl rfl (by with_unfolding_all decide) rfl
  · exact (catch_auto_resolution (105/100) [false, false, true]
      ⟨1, 2, "c", false, true, 0, false, NoteType.CATCH⟩ ⟨0, 0, 0, 0, 0, 0⟩).2
      2 [⟨1, 2, "c", false, true, 0, false, NoteType.CATCH⟩] 0 rfl

lemma catchPhase_score_le (gameTime : ℚ) (keyState : List Bool) (p : Note × ScoreState) :
    p.2.score ≤ (catchPhase gameTime keyState p).2.score := by
  unfold catchPhase
  split_ifs with h
  · apply le_add_of_nonneg_right
    unfold SCORE_BASE_PERFECT
    positivity
  · exact le_refl _

lemma missPhase_score_eq (gameTime : ℚ) (p : Note × ScoreState) :
    (missPhase gameTime p).2.score = p.2.score := by
  unfold missPhase
  split_ifs <;> rfl

lemma holdPhase_score_le (gameTime : ℚ) (p : Note × ScoreState) :
    p.2.score ≤ (holdPhase gameTime p).2.score := by
  unfold holdPhase
  split_ifs with h1 h2
  · apply le_add_of_nonneg_right
    unfold SCORE_HOLD_TICK
    positivity
  · exact le_refl _
  · exact le_refl _

lemma gameLoopNoteStep_score_le (gameTime : ℚ) (keyState : List Bool) (n : Note)
    (s : ScoreState) : s.score ≤ (gameLoopNoteStep gameTime keyState n s).2.score := by
  unfold gameLoopNoteStep
  split_ifs with h
  · exact le_refl _
  · calc s.score = ((n, s) : Note × ScoreState).2.score := rfl
      _ ≤ (catchPhase gameTime keyState (n, s)).2.score := catchPhase_score_le _ _ _
      _ = (missPhase gameTime (catchPhase gameTime keyState (n, s))).2.score :=
          (missPhase_score_eq _ _).symm
      _ ≤ _ := holdPhase_score_le _ _

lemma gameLoopNotes_score_le (gameTime : ℚ) (keyState : List Bool) (notes : List Note)
    (s : ScoreState) : s.score ≤ (gameLoopNotes gameTime keyState notes s).2.score := by
  induction notes generalizing s with
  | nil => exact le_refl _
  | cons n rest ih =>
    calc s.score ≤ (gameLoopNoteStep gameTime keyState n s).2.score :=
        gameLoopNoteStep_score_le _ _ _ _
      _ ≤ _ := ih _

lemma processHit_score_le (gameTime : ℚ) (lane : ℕ) (notes : List Note) (s : ScoreState) :
    s.score ≤ (processHit gameTime lane notes s).2.score := by
  unfold processHit
  cases hfind : notes.find? (hitPred gameTime lane) with
  | none => exact le_refl _
  | some n =>
    simp only
    split_ifs with h
    · apply le_add_of_nonneg_right
      unfold SCORE_BASE_PERFECT
      positivity
    · apply le_add_of_nonneg_right
      unfold SCORE_BASE_GOOD
      positivity

/-- C9: within a session the total score is non-decreasing over every
engine event — a press (`processHit`), any single game-loop note step and
a whole game-loop pass never lower the score; `processRelease` returns
only the updated note list and by construction cannot touch the score; and
a plain miss (an unresolved, non-holding note past its window) changes no
score at all, only resetting combo and incrementing the miss counter. -/
theorem engine_score_monotone (gameTime : ℚ) (lane : ℕ) (keyState : List Bool)
    (notes : List Note) (n : Note) (s : ScoreState) :
    s.score ≤ (processHit gameTime lane notes s).2.score ∧
    s.score ≤ (gameLoopNoteStep gameTime keyState n s).2.score ∧
    s.score ≤ (gameLoopNotes gameTime keyState notes s).2.score ∧
    (n.visible = true → n.hit = false → n.isHolding = false →
      gameTime > n.time + HIT_WINDOW_GOOD →
      (gameLoopNoteStep gameTime keyState n s).2.score = s.score ∧
      (gameLoopNoteStep gameTime keyState n s).2.combo = 0 ∧
      (gameLoopNoteStep gameTime keyState n s).2.miss = s.miss + 1) := by
  refine ⟨processHit_score_le _ _ _ _, gameLoopNoteStep_score_le _ _ _ _,
    gameLoopNotes_score_le _ _ _ _, ?_⟩
  intro hvis hhit hhold hlate
  have hcatch : catchPhase gameTime keyState (n, s) = (n, s) := by
    unfold catchPhase
    rw [if_neg]
    rintro ⟨-, -, hwin, -⟩
    simp only at hwin
    have h1 : gameTime - n.time > HIT_WINDOW_CATCH := by
      unfold HIT_WINDOW_CATCH
      unfold HIT_WINDOW_GOOD at hlate
      linarith
    have h2 := abs_le.mp hwin
    unfold HIT_WINDOW_CATCH at h1 h2
    linarith [h2.2]
  have hstep : gameLoopNoteStep gameTime keyState n s =
      ({ n with visible := false, hit := true },
       { s with miss := s.miss + 1, combo := 0 }) := by
    unfold gameLoopNoteStep
    rw [if_neg (by simp [hvis]), hcatch]
    unfold missPhase
    rw [if_pos ⟨hhit, hlate⟩]
    unfold holdPhase
    rw [if_neg (by simp [hhold])]
  rw [hstep]
  exact ⟨rfl, rfl, rfl⟩

/-- Witness for C9: at game time 2 a lone unresolved tap note at time 1 is
overdue; the step leaves the score at 0 while setting miss to 1, and a
press and a full loop pass never lower the score. -/
theorem engine_score_monotone_witness :
    (gameLoopNoteStep 2 [false] ⟨1, 0, "n", false, true, 0, false, NoteType.NORMAL⟩
      ⟨0, 0, 0, 0, 0, 0⟩).2.score = (⟨0, 0, 0, 0, 0, 0⟩ : ScoreState).score ∧
    (gameLoopNoteStep 2 [false] ⟨1, 0, "n", false, true, 0, false, NoteType.NORMAL⟩
      ⟨0, 0, 0, 0, 0, 0⟩).2.miss = 0 + 1 := by
  have h := (engine_score_monotone 2 0 [false]
    [⟨1, 0, "n", false, true, 0, false, NoteType.NORMAL⟩]
    ⟨1, 0, "n", false, true, 0, false, NoteType.NORMAL⟩ ⟨0, 0, 0, 0, 0, 0⟩).2.2.2
    rfl rfl rfl (by with_unfolding_all decide)
  exact ⟨h.1, h.2.2⟩

lemma catchPhase_combo (gameTime : ℚ) (keyState : List Bool) (p : Note × ScoreState) :
    ((catchPhase gameTime keyState p).2.combo ≤ (catchPhase gameTime keyState p).2.maxCombo ∨
      (catchPhase gameTime keyState p).2.combo = p.2.combo) ∧
    p.2.maxCombo ≤ (catchPhase gameTime keyState p).2.maxCombo := by
  unfold catchPhase
  split_ifs with h
  · exact ⟨Or.inl (by simp only; omega), by simp only; omega⟩
  · exact ⟨Or.inr rfl, le_refl _⟩

lemma missPhase_combo (gameTime : ℚ) (p : Note × ScoreState) :
    ((missPhase gameTime p).2.combo ≤ (missPhase gameTime p).2.maxCombo ∨
      (missPhase gameTime p).2.combo = p.2.combo) ∧
    p.2.maxCombo ≤ (missPhase gameTime p).2.maxCombo := by
  unfold missPhase
  split_ifs with h
  · exact ⟨Or.inl (by simp only; omega), le_refl _⟩
  · exact ⟨Or.inr rfl, le_refl _⟩

lemma holdPhase_combo (gameTime : ℚ) (p : Note × ScoreState) :
    (holdPhase gameTime p).2.combo = p.2.combo ∧
    (holdPhase gameTime p).2.maxCombo = p.2.maxCombo := by
  unfold holdPhase
  split_ifs <;> exact ⟨rfl, rfl⟩

lemma gameLoopNoteStep_combo (gameTime : ℚ) (keyState : List Bool) (n : Note)
    (s : ScoreState) :
    (s.combo ≤ s.maxCombo →
      (gameLoopNoteStep gameTime keyState n s).2.combo ≤
      (gameLoopNoteStep gameTime keyState n s).2.maxCombo) ∧
    s.maxCombo ≤ (gameLoopNoteStep gameTime keyState n s).2.maxCombo := by
  unfold gameLoopNoteStep
  split_ifs with h
  · exact ⟨fun hs => hs, le_refl _⟩
  · have hc := catchPhase_combo gameTime keyState (n, s)
    have hm := missPhase_combo gameTime (catchPhase gameTime keyState (n, s))
    have hh := holdPhase_combo gameTime (missPhase gameTime (catchPhase gameTime keyState (n, s)))
    constructor
    · intro hs
      rw [hh.1, hh.2]
      rcases hm.1 with h1 | h1
      · exact h1
      · rw [h1]
        rcases hc.1 with h2 | h2
        · exact le_trans h2 hm.2
        · rw [h2]
          exact le_trans hs (le_trans hc.2 hm.2)
    · rw [hh.2]
      exact le_trans hc.2 hm.2

lemma gameLoopNotes_combo (gameTime : ℚ) (keyState : List Bool) (notes : List Note)
    (s : ScoreState) :
    (s.combo ≤ s.maxCombo →
      (gameLoopNotes gameTime keyState notes s).2.combo ≤
      (gameLoopNotes gameTime keyState notes s).2.maxCombo) ∧
    s.maxCombo ≤ (gameLoopNotes gameTime keyState notes s).2.maxCombo := by
  induction notes generalizing s with
  | nil => exact ⟨fun hs => hs, le_refl _⟩
  | cons m rest ih =>
    have hstep := gameLoopNoteStep_combo gameTime keyState m s
    have hrest := ih (gameLoopNoteStep gameTime keyState m s).2
    exact ⟨fun hs => hrest.1 (hstep.1 hs), le_trans hstep.2 hrest.2⟩

lemma processHit_combo (gameTime : ℚ) (lane : ℕ) (notes : List Note) (s : ScoreState) :
    ((processHit gameTime lane notes s).2.combo ≤
        (processHit gameTime lane notes s).2.maxCombo ∨
      (processHit gameTime lane notes s).2 = s) ∧
    s.maxCombo ≤ (processHit gameTime lane notes s).2.maxCombo := by
  unfold processHit
  cases hfind : notes.find? (hitPred gameTime lane) with
  | none => exact ⟨Or.inr rfl, le_refl _⟩
  | some n =>
    simp only
    split_ifs with h
    · exact ⟨Or.inl (by simp only; omega), by simp only; omega⟩
    · exact ⟨Or.inl (by simp only; omega), by simp only; omega⟩

/-- C10: after every engine event, `maxCombo ≥ combo` is preserved and
`maxCombo` never decreases: this holds for a press (`processHit`), for a
single game-loop note step and for a whole game-loop pass (a miss resets
combo to 0, which only strengthens the inequality, and never lowers
maxCombo). -/
theorem engine_maxCombo_invariant (gameTime : ℚ) (lane : ℕ) (keyState : List Bool)
    (notes : List Note) (n : Note) (s : ScoreState) (hs : s.combo ≤ s.maxCombo) :
    (processHit gameTime lane notes s).2.combo ≤
      (processHit gameTime lane notes s).2.maxCombo ∧
    s.maxCombo ≤ (processHit gameTime lane notes s).2.maxCombo ∧
    (gameLoopNoteStep gameTime keyState n s).2.combo ≤
      (gameLoopNoteStep gameTime keyState n s).2.maxCombo ∧
    s.maxCombo ≤ (gameLoopNoteStep gameTime keyState n s).2.maxCombo ∧
    (gameLoopNotes gameTime keyState notes s).2.combo ≤
      (gameLoopNotes gameTime keyState notes s).2.maxCombo ∧
    s.maxCombo ≤ (gameLoopNotes gameTime keyState notes s).2.maxCombo := by
  have hp := processHit_combo gameTime lane notes s
  have hstep := gameLoopNoteStep_combo gameTime keyState n s
  have hpass := gameLoopNotes_combo gameTime keyState notes s
  refine ⟨?_, hp.2, hstep.1 hs, hstep.2, hpass.1 hs, hpass.2⟩
  rcases hp.1 with h | h
  · exact h
  · rw [h]
    exact hs

/-- Witness for C10: starting from combo 2, maxCombo 5, a press that hits a
tap note keeps `combo ≤ maxCombo` and does not lower maxCombo, and so does
a loop pass that misses the overdue note. -/
theorem engine_maxCombo_invariant_witness :
    (processHit (103/100) 0 [⟨1, 0, "n", false, true, 0, false, NoteType.NORMAL⟩]
      ⟨0, 2, 5, 0, 0, 0⟩).2.combo ≤
    (processHit (103/100) 0 [⟨1, 0, "n", false, true, 0, false, NoteType.NORMAL⟩]
      ⟨0, 2, 5, 0, 0, 0⟩).2.maxCombo ∧
    (gameLoopNotes 2 [false] [⟨1, 0, "n", false, true, 0, false, NoteType.NORMAL⟩]
      ⟨0, 2, 5, 0, 0, 0⟩).2.combo ≤
    (gameLoopNotes 2 [false] [⟨1, 0, "n", false, true, 0, false, NoteType.NORMAL⟩]
      ⟨0, 2, 5, 0, 0, 0⟩).2.maxCombo := by
  have h := engine_maxCombo_invariant (103/100) 0 [false]
    [⟨1, 0, "n", false, true, 0, false, NoteType.NORMAL⟩]
    ⟨1, 0, "n", false, true, 0, false, NoteType.NORMAL⟩ ⟨0, 2, 5, 0, 0, 0⟩
    (by with_unfolding_all decide)
  have h2 := engine_maxCombo_invariant 2 0 [false]
    [⟨1, 0, "n", false, true, 0, false, NoteType.NORMAL⟩]
    ⟨1, 0, "n", false, true, 0, false, NoteType.NORMAL⟩ ⟨0, 2, 5, 0, 0, 0⟩
    (by with_unfolding_all decide)
  exact ⟨h.1, h2.2.2.2.2.1⟩

/-- Counterexample to C3 as stated: a press in lane 0 at exactly the miss
boundary `gameTime = note.time + HIT_WINDOW_GOOD` (1 + 0.12) does NOT
count as a hit — `processHit` matches only strictly inside the window
(`|gameTime - note.time| < 0.12`), so the press leaves the notes and the
score state completely unchanged. -/
theorem miss_boundary_counterexample :
    (112/100 : ℚ) = 1 + HIT_WINDOW_GOOD ∧
    processHit (112/100) 0 [⟨1, 0, "n", false, true, 0, false, NoteType.NORMAL⟩]
      ⟨0, 0, 0, 0, 0, 0⟩ =
      ([⟨1, 0, "n", false, true, 0, false, NoteType.NORMAL⟩], ⟨0, 0, 0, 0, 0, 0⟩) := by
  with_unfolding_all decide

/-- C3 amended: a press resolves an unresolved NORMAL note only strictly
inside the GOOD window; when every note of the chart fails the window
predicate — in particular at exactly `gameTime = note.time + 0.12` —
`processHit` changes nothing.  Any unresolved, non-holding, visible note
becomes MISS exactly once when `gameTime > note.time + 0.12`: the step
hides it, tombstones it with `hit := true`, increments the miss counter
and resets combo to 0; and a note already resolved (`hit = true`) is never
missed again (its miss counter stays put). -/
theorem miss_boundary_amended (gameTime : ℚ) (lane : ℕ) (keyState : List Bool)
    (notes : List Note) (n : Note) (s : ScoreState) :
    ((∀ m ∈ notes, ¬(m.hit = false ∧ m.lane = lane ∧ m.type = NoteType.NORMAL ∧
        |gameTime - m.time| < HIT_WINDOW_GOOD)) →
      processHit gameTime lane notes s = (notes, s)) ∧
    (n.visible = true → n.hit = false → n.isHolding = false →
      gameTime > n.time + HIT_WINDOW_GOOD →
      gameLoopNoteStep gameTime keyState n s =
        ({ n with visible := false, hit := true },
         { s with miss := s.miss + 1, combo := 0 })) ∧
    (n.hit = true → (gameLoopNoteStep gameTime keyState n s).2.miss = s.miss) := by
  refine ⟨?_, ?_, ?_⟩
  · intro hall
    have hnone : notes.find? (hitPred gameTime lane) = none := by
      apply find?_eq_none_of_all
      intro m hm
      unfold hitPred
      rw [decide_eq_false_iff_not]
      exact hall m hm
    simp [processHit, hnone]
  · intro hvis hhit hhold hlate
    have hcatch : catchPhase gameTime keyState (n, s) = (n, s) := by
      unfold catchPhase
      rw [if_neg]
      rintro ⟨-, -, hwin, -⟩
      simp only at hwin
      have h2 := abs_le.mp hwin
      unfold HIT_WINDOW_CATCH at h2
      unfold HIT_WINDOW_GOOD at hlate
      linarith [h2.2]
    unfold gameLoopNoteStep
    rw [if_neg (by simp [hvis]), hcatch]
    unfold missPhase
    rw [if_pos ⟨hhit, hlate⟩]
    unfold holdPhase
    rw [if_neg (by simp [hhold])]
  · intro hhit
    unfold gameLoopNoteStep
    split_ifs with h
    · rfl
    · have hcatch : catchPhase gameTime keyState (n, s) = (n, s) := by
        unfold catchPhase
        rw [if_neg]
        rintro ⟨-, hh, -, -⟩
        simp only at hh
        rw [hhit] at hh
        exact absurd hh (by simp)
      rw [hcatch]
      have hmiss : missPhase gameTime (n, s) = (n, s) := by
        unfold missPhase
        rw [if_neg]
        rintro ⟨hh, -⟩
        simp only at hh
        rw [hhit] at hh
        exact absurd hh (by simp)
      rw [hmiss]
      unfold holdPhase
      split_ifs with h1 h2 <;> rfl

/-- Witness for C3 amended: the boundary press at 1.12 on a note at time 1
is a no-op; at game time 1.121 the note is missed exactly once (miss 1,
combo 0); a note already hit is not missed again. -/
theorem miss_boundary_amended_witness :
    processHit (112/100) 0 [⟨1, 0, "m", false, true, 0, false, NoteType.NORMAL⟩]
      ⟨0, 3, 3, 0, 0, 0⟩ =
      ([⟨1, 0, "m", false, true, 0, false, NoteType.NORMAL⟩], ⟨0, 3, 3, 0, 0, 0⟩) ∧
    gameLoopNoteStep (1121/1000) [false] ⟨1, 0, "m", false, true, 0, false, NoteType.NORMAL⟩
      ⟨0, 3, 3, 0, 0, 0⟩ =
      (⟨1, 0, "m", true, false, 0, false, NoteType.NORMAL⟩, ⟨0, 0, 3, 0, 0, 0 + 1⟩) ∧
    (gameLoopNoteStep (1121/1000) [false] ⟨1, 0, "m", true, false, 0, false, NoteType.NORMAL⟩
      ⟨0, 0, 3, 0, 0, 1⟩).2.miss = 1 := by
  refine ⟨?_, ?_, ?_⟩
  · exact (miss_boundary_amended (112/100) 0 [false]
      [⟨1, 0, "m", false, true, 0, false, NoteType.NORMAL⟩]
      ⟨1, 0, "m", false, true, 0, false, NoteType.NORMAL⟩ ⟨0, 3, 3, 0, 0, 0⟩).1
      (by with_unfolding_all decide)
  · exact (miss_boundary_amended (1121/1000) 0 [false]
      [⟨1, 0, "m", false, true, 0, false, NoteType.NORMAL⟩]
      ⟨1, 0, "m", false, true, 0, false, NoteType.NORMAL⟩ ⟨0, 3, 3, 0, 0, 0⟩).2.1
      rfl rfl rfl (by with_unfolding_all decide)
  · exact (miss_boundary_amended (1121/1000) 0 [false]
      [⟨1, 0, "m", true, false, 0, false, NoteType.NORMAL⟩]
      ⟨1, 0, "m", true, false, 0, false, NoteType.NORMAL⟩ ⟨0, 0, 3, 0, 0, 1⟩).2.2 rfl

/-- Counterexample to C2 as stated: there is no session-start validation or
rejection.  For a chart containing a note in the out-of-range lane 7, the
session-start effect simply infers a lane count of 6 and the session
proceeds; a press in a valid lane (here lane 3) has no effect on the chart
or score, the note is never hittable, and once its window passes the game
loop silently resolves it as a MISS instead of anything failing fast. -/
theorem lane_validation_counterexample :
    inferLaneCount [⟨1, 7, "x", false, true, 0, false, NoteType.NORMAL⟩] = 6 ∧
    processHit 1 3 [⟨1, 7, "x", false, true, 0, false, NoteType.NORMAL⟩]
      ⟨0, 0, 0, 0, 0, 0⟩ =
      ([⟨1, 7, "x", false, true, 0, false, NoteType.NORMAL⟩], ⟨0, 0, 0, 0, 0, 0⟩) ∧
    (gameLoopNoteStep (12/10) (initKeyState 6)
      ⟨1, 7, "x", false, true, 0, false, NoteType.NORMAL⟩ ⟨0, 0, 0, 0, 0, 0⟩).2.miss = 1 := by
  with_unfolding_all decide

/-- C2 amended: at session start the engine does not validate the chart
against a configured lane count; it infers the count from the notes
(6 when some lane exceeds 3, else 4) and builds the per-lane key state for
that count — every chart is accepted.  A note referencing a lane at or
beyond the inferred count is silently out of reach during play: a press in
any in-range lane leaves it untouched, and a key-state array shorter than
its lane index can never catch-resolve it (so it can only become a MISS). -/
theorem lane_inference_amended (notes : List Note) (gameTime : ℚ) (lane i : ℕ)
    (keyState : List Bool) (n : Note) (s : ScoreState) :
    (inferLaneCount notes = 4 ∨ inferLaneCount notes = 6) ∧
    (initKeyState (inferLaneCount notes)).length = inferLaneCount notes ∧
    (lane < inferLaneCount notes → inferLaneCount notes ≤ (notes.getD i default).lane →
      (processHit gameTime lane notes s).1.getD i default = notes.getD i default) ∧
    (keyState.length ≤ n.lane →
      (gameLoopNoteStep gameTime keyState n s).2.perfect = s.perfect) := by
  refine ⟨?_, ?_, ?_, ?_⟩
  · unfold inferLaneCount
    split_ifs with h
    · exact Or.inr rfl
    · exact Or.inl rfl
  · exact List.length_replicate _ _
  · intro hlane hout
    have hpred : hitPred gameTime lane (notes.getD i default) = false := by
      unfold hitPred
      rw [decide_eq_false_iff_not]
      rintro ⟨-, hl, -, -⟩
      rw [hl] at hout
      omega
    cases hfind : notes.find? (hitPred gameTime lane) with
    | none => simp [processHit, hfind]
    | some m =>
      simp only [processHit, hfind]
      exact markFirstHit_getD_of_pred_false gameTime lane notes i hpred
  · intro hlen
    have hkey : keyState.getD n.lane false = false := by
      rw [List.getD_eq_getElem?_getD, List.getElem?_eq_none (by omega)]
      rfl
    unfold gameLoopNoteStep
    split_ifs with h
    · rfl
    · have hcatch : catchPhase gameTime keyState (n, s) = (n, s) := by
        unfold catchPhase
        rw [if_neg]
        rintro ⟨-, -, -, hk⟩
        simp only at hk
        rw [hkey] at hk
        exact absurd hk (by simp)
      rw [hcatch]
      have hm : (missPhase gameTime (n, s)).2.perfect = s.perfect := by
        unfold missPhase
        split_ifs <;> rfl
      have hh : ∀ p : Note × ScoreState, (holdPhase gameTime p).2.perfect = p.2.perfect := by
        intro p
        unfold holdPhase
        split_ifs <;> rfl
      rw [hh, hm]

/-- Witness for C2 amended: for the chart with the lane-7 note, the inferred
count is 6, the key state has 6 entries, the press in lane 3 preserves the
note, and with the 6-entry key state the step awards no PERFECT. -/
theorem lane_inference_amended_witness :
    (inferLaneCount [⟨1, 7, "x", false, true, 0, false, NoteType.NORMAL⟩] = 4 ∨
      inferLaneCount [⟨1, 7, "x", false, true, 0, false, NoteType.NORMAL⟩] = 6) ∧
    (processHit 1 3 [⟨1, 7, "x", false, true, 0, false, NoteType.NORMAL⟩]
      ⟨0, 0, 0, 0, 0, 0⟩).1.getD 0 default =
      ([⟨1, 7, "x", false, true, 0, false, NoteType.NORMAL⟩] : List Note).getD 0 default ∧
    (gameLoopNoteStep 1 (initKeyState 6)
      ⟨1, 7, "x", false, true, 0, false, NoteType.NORMAL⟩ ⟨0, 0, 0, 0, 0, 0⟩).2.perfect =
      (⟨0, 0, 0, 0, 0, 0⟩ : ScoreState).perfect := by
  have h := lane_inference_amended [⟨1, 7, "x", false, true, 0, false, NoteType.NORMAL⟩]
    1 3 0 (initKeyState 6) ⟨1, 7, "x", false, true, 0, false, NoteType.NORMAL⟩
    ⟨0, 0, 0, 0, 0, 0⟩
  exact ⟨h.1, h.2.2.1 (by with_unfolding_all decide) (by with_unfolding_all decide),
    h.2.2.2 (by with_unfolding_all decide)⟩

lemma getD_le_of_forall_le (l : List ℚ) (c : ℚ) (i : ℕ)
    (h : ∀ x ∈ l, x ≤ c) (hd : (0 : ℚ) ≤ c) : l.getD i 0 ≤ c := by
  rw [List.getD_eq_getElem?_getD]
  cases hli : l[i]? with
  | none => simpa using hd
  | some x =>
    have hx : x ∈ l := by
      have := List.getElem?_eq_some.mp hli
      obtain ⟨hw, he⟩ := this
      exact he ▸ List.getElem_mem _
    simpa using h x hx

/-- C8: if every analysis frame's RMS energy in both the low band and the
full band is at or below the 0.01 silence floor, the onset-detection loop
returns the empty onset list (and, being a total function, raises no
error): both band triggers require the absolute energy to strictly exceed
the floor. -/
theorem detectOnsets_silence (lowEnergies fullEnergies : List ℚ)
    (hlow : ∀ x ∈ lowEnergies, x ≤ (0.01 : ℚ))
    (hfull : ∀ x ∈ fullEnergies, x ≤ (0.01 : ℚ)) :
    detectOnsets lowEnergies fullEnergies = [] := by
  simp only [detectOnsets]
  apply list_foldl_preserve (fun acc : ℚ × List Onset => acc.2 = [])
  · rfl
  · intro a i hi ha
    dsimp only
    split_ifs with h1 h2
    · exact ha
    · exfalso
      have habsLow : lowEnergies.getD i 0 ≤ (0.01 : ℚ) :=
        getD_le_of_forall_le _ _ _ hlow (by norm_num)
      have habsFull : fullEnergies.getD i 0 ≤ (0.01 : ℚ) :=
        getD_le_of_forall_le _ _ _ hfull (by norm_num)
      rcases h2 with ⟨-, h⟩ | ⟨-, h⟩
      · exact absurd h (not_lt.mpr habsLow)
      · exact absurd h (not_lt.mpr habsFull)
    · exact ha

/-- Witness for C8: two frames of sub-floor energies in both bands produce
no onsets. -/
theorem detectOnsets_silence_witness :
    detectOnsets [1/200, 1/100] [1/100, 0] = [] :=
  detectOnsets_silence [1/200, 1/100] [1/100, 0]
    (by intro x hx; simp at hx; rcases hx with h | h <;> rw [h] <;> norm_num)
    (by intro x hx; simp at hx; rcases hx with h | h <;> rw [h] <;> norm_num)

/-- Counterexample to C1 as stated: a non-empty onset list consisting of a
single onset of energy 0.01 produces the empty chart.  The onset is below
every generation threshold (the lowest is 0.05 * 1.4 * 0.7 = 0.049 for the
Normal retry pass) and the raw fallback keeps only onsets with energy
strictly above its 0.1 floor, so the "retry + raw fallback" pipeline still
returns `[]` although the onset list is non-empty. -/
theorem generateBeatmap_low_energy_counterexample :
    generateBeatmap [⟨0, 1/100, false⟩]
      ⟨120, [⟨0, 10, SectionType.verse, 1, SectionStyle.stream⟩]⟩
      BeatmapDifficulty.Normal 4 PlayStyle.THUMB (fun _ => 0) = [] ∧
    ([⟨0, 1/100, false⟩] : List Onset) ≠ [] := by
  with_unfolding_all decide

/-- C1 amended: `generateBeatmap` returns the empty chart on an empty onset
list, and returns a non-empty chart whenever some onset has energy above
the raw-fallback floor 0.1 (for every structure, difficulty, lane count,
play style and random stream): if the generation passes produce notes the
result is that non-empty list, and otherwise the raw fallback keeps every
onset above the floor.  (For a non-empty onset list in which every onset
is at or below 0.1 and below the pass thresholds, the result can be empty
— see the counterexample.) -/
theorem generateBeatmap_nonempty_amended (onsets : List Onset) (st : SongStructure)
    (difficulty : BeatmapDifficulty) (laneCount : ℕ) (playStyle : PlayStyle)
    (rng : ℕ → ℚ) :
    ((∃ o ∈ onsets, (0.1 : ℚ) < o.energy) →
      generateBeatmap onsets st difficulty laneCount playStyle rng ≠ []) ∧
    (onsets = [] → generateBeatmap onsets st difficulty laneCount playStyle rng = []) := by
  constructor
  · rintro ⟨o, ho, he⟩
    have hmem : o ∈ sortOnsets onsets := by
      unfold sortOnsets
      exact (List.mem_insertionSort _).mpr ho
    have hpos : 0 < (sortOnsets onsets).length :=
      List.length_pos.mpr (List.ne_nil_of_mem hmem)
    have hfb : ∀ lc : ℕ, generateRawFallback (sortOnsets onsets) lc ≠ [] := by
      intro lc
      have hof : o ∈ (sortOnsets onsets).filter fun x => decide (x.energy > 0.1) :=
        List.mem_filter.mpr ⟨hmem, by simpa using he⟩
      have hlen : 0 < (generateRawFallback (sortOnsets onsets) lc).length := by
        unfold generateRawFallback
        rw [List.length_map, List.enum_length]
        exact List.length_pos.mpr (List.ne_nil_of_mem hof)
      exact List.length_pos.mp hlen
    simp only [generateBeatmap]
    split_ifs <;>
      first
        | exact hfb _
        | · rename_i hcond
            intro hnil
            exact hcond ⟨by rw [hnil]; rfl, hpos⟩
  · intro h
    subst h
    have hs : sortOnsets ([] : List Onset) = [] := rfl
    simp only [generateBeatmap, hs]
    split_ifs with h1 h2 <;> simp_all [runGenerationPass]

/-- Witness for C1 amended: a single energetic onset (energy 0.9 > 0.1)
yields a non-empty chart, and the empty onset list yields the empty
chart. -/
theorem generateBeatmap_nonempty_witness :
    generateBeatmap [⟨1, 9/10, true⟩]
      ⟨120, [⟨0, 10, SectionType.verse, 1, SectionStyle.stream⟩]⟩
      BeatmapDifficulty.Normal 4 PlayStyle.THUMB (fun _ => 0) ≠ [] ∧
    generateBeatmap []
      ⟨120, [⟨0, 10, SectionType.verse, 1, SectionStyle.stream⟩]⟩
      BeatmapDifficulty.Normal 4 PlayStyle.THUMB (fun _ => 0) = [] := by
  constructor
  · exact (generateBeatmap_nonempty_amended [⟨1, 9/10, true⟩]
      ⟨120, [⟨0, 10, SectionType.verse, 1, SectionStyle.stream⟩]⟩
      BeatmapDifficulty.Normal 4 PlayStyle.THUMB (fun _ => 0)).1
      ⟨⟨1, 9/10, true⟩, by simp, by norm_num⟩
  · exact (generateBeatmap_nonempty_amended []
      ⟨120, [⟨0, 10, SectionType.verse, 1, SectionStyle.stream⟩]⟩
      BeatmapDifficulty.Normal 4 PlayStyle.THUMB (fun _ => 0)).2 rfl

lemma holdDraw_duration_nonneg (st : SongStructure) (config : GenConfig)
    (rng : ℕ → ℚ) (sec : SectionInfo) (simNotes idx : ℕ) :
    0 ≤ (holdDraw st config rng sec simNotes idx).2.1 := by
  unfold holdDraw
  split_ifs <;> norm_num

lemma genPlace_shape (st : SongStructure) (config : GenConfig) (laneCount : ℕ)
    (playStyle : PlayStyle) (difficulty : BeatmapDifficulty) (rng : ℕ → ℚ)
    (sec : SectionInfo) (s : GenState) (o : Onset) :
    ∃ (newNotes : List Note) (lanes : List ℕ) (k : ℕ) (d : ℚ),
      0 ≤ d ∧ (∀ n ∈ newNotes, n.time = o.time) ∧
      genPlace st config laneCount playStyle difficulty rng sec s o =
        { notes := s.notes ++ newNotes, lastLanes := lanes, lastTime := o.time + d, idx := k } := by
  simp only [genPlace]
  refine ⟨_, _, _, _, ?_, ?_, rfl⟩
  · split_ifs <;>
      first
        | exact holdDraw_duration_nonneg st config rng sec _ _
        | exact le_refl 0
  · intro n hn
    simp only [List.mem_map] at hn
    obtain ⟨lane, -, rfl⟩ := hn
    rfl

lemma genStep_shape (st : SongStructure) (config : GenConfig) (laneCount : ℕ)
    (playStyle : PlayStyle) (difficulty : BeatmapDifficulty) (rng : ℕ → ℚ)
    (s : GenState) (o : Onset) :
    genStep st config laneCount playStyle difficulty rng s o = s ∨
    (config.minGap ≤ o.time - s.lastTime ∧
      ∃ (newNotes : List Note) (lanes : List ℕ) (k : ℕ) (d : ℚ),
        0 ≤ d ∧ (∀ n ∈ newNotes, n.time = o.time) ∧
        genStep st config laneCount playStyle difficulty rng s o =
          { notes := s.notes ++ newNotes, lastLanes := lanes, lastTime := o.time + d,
            idx := k }) := by
  simp only [genStep]
  split_ifs <;>
    first
      | exact Or.inl rfl
      | · rename_i hgap
          exact Or.inr ⟨le_of_not_lt hgap, genPlace_shape st config laneCount playStyle
            difficulty rng _ s o⟩

lemma runGenerationPass_gapped (onsets : List Onset) (st : SongStructure)
    (config : GenConfig) (laneCount : ℕ) (playStyle : PlayStyle)
    (difficulty : BeatmapDifficulty) (rng : ℕ → ℚ) (idx : ℕ)
    (hg : 0 ≤ config.minGap) :
    ∀ m ∈ (runGenerationPass onsets st config laneCount playStyle difficulty rng idx).1,
      ∀ n ∈ (runGenerationPass onsets st config laneCount playStyle difficulty rng idx).1,
        m.time ≠ n.time → config.minGap ≤ |m.time - n.time| := by
  have key : (∀ n ∈ (onsets.foldl (genStep st config laneCount playStyle difficulty rng)
        ⟨[], [laneCount / 2], -10, idx⟩).notes,
        n.time ≤ (onsets.foldl (genStep st config laneCount playStyle difficulty rng)
        ⟨[], [laneCount / 2], -10, idx⟩).lastTime) ∧
      (∀ m ∈ (onsets.foldl (genStep st config laneCount playStyle difficulty rng)
        ⟨[], [laneCount / 2], -10, idx⟩).notes,
       ∀ n ∈ (onsets.foldl (genStep st config laneCount playStyle difficulty rng)
        ⟨[], [laneCount / 2], -10, idx⟩).notes,
        m.time ≠ n.time → config.minGap ≤ |m.time - n.time|) := by
    apply list_foldl_preserve
      (fun g : GenState => (∀ n ∈ g.notes, n.time ≤ g.lastTime) ∧
        ∀ m ∈ g.notes, ∀ n ∈ g.notes, m.time ≠ n.time → config.minGap ≤ |m.time - n.time|)
    · exact ⟨fun n hn => absurd hn (List.not_mem_nil n), fun m hm => absurd hm (List.not_mem_nil m)⟩
    · intro g o ho hinv
      rcases genStep_shape st config laneCount playStyle difficulty rng g o with heq | hacc
      · rw [heq]
        exact hinv
      · obtain ⟨hgap, newNotes, lanes, k, d, hd, htimes, heq⟩ := hacc
        rw [heq]
        constructor
        · intro n hn
          simp only at hn ⊢
          rcases List.mem_append.mp hn with hold | hnew
          · have := hinv.1 n hold
            linarith
          · rw [htimes n hnew]
            linarith
        · intro m hm n hn hne
          simp only at hm hn
          rcases List.mem_append.mp hm with hmo | hmn <;>
            rcases List.mem_append.mp hn with hno | hnn
          · exact hinv.2 m hmo n hno hne
          · rw [htimes n hnn]
            rw [htimes n hnn] at hne
            have hmt := hinv.1 m hmo
            have : config.minGap ≤ o.time - m.time := by linarith
            rw [abs_sub_comm]
            rw [abs_of_nonneg (by linarith)]
            exact this
          · rw [htimes m hmn]
            rw [htimes m hmn] at hne
            have hnt := hinv.1 n hno
            have : config.minGap ≤ o.time - n.time := by linarith
            rw [abs_of_nonneg (by linarith)]
            exact this
          · rw [htimes m hmn, htimes n hnn] at hne
            exact absurd rfl hne
  intro m hm n hn hne
  exact key.2 m hm n hn hne

/-- Counterexample to C6 as stated: for five onsets of energy 0.5 at times
0, 0.01, 0.02, 0.03, 0.04 in a zero-intensity section on Easy (threshold
0.3 * 2.0 = 0.6 > 0.5), the generation pass emits nothing and `generateBeatmap`
falls back to the raw fallback, which assigns round-robin lanes and ignores
`minGap` entirely: the resulting chart puts two notes in lane 0 at times 0
and 0.04, only 0.04 apart, far below Easy's `minGap` of 0.45. -/
theorem minGap_fallback_counterexample :
    ((generateBeatmap
        [⟨0, 1/2, false⟩, ⟨1/100, 1/2, false⟩, ⟨2/100, 1/2, false⟩,
         ⟨3/100, 1/2, false⟩, ⟨4/100, 1/2, false⟩]
        ⟨120, [⟨0, 10, SectionType.verse, 0, SectionStyle.jump⟩]⟩
        BeatmapDifficulty.Easy 4 PlayStyle.THUMB (fun _ => 0)).getD 0 default).lane = 0 ∧
    ((generateBeatmap
        [⟨0, 1/2, false⟩, ⟨1/100, 1/2, false⟩, ⟨2/100, 1/2, false⟩,
         ⟨3/100, 1/2, false⟩, ⟨4/100, 1/2, false⟩]
        ⟨120, [⟨0, 10, SectionType.verse, 0, SectionStyle.jump⟩]⟩
        BeatmapDifficulty.Easy 4 PlayStyle.THUMB (fun _ => 0)).getD 4 default).lane = 0 ∧
    ((generateBeatmap
        [⟨0, 1/2, false⟩, ⟨1/100, 1/2, false⟩, ⟨2/100, 1/2, false⟩,
         ⟨3/100, 1/2, false⟩, ⟨4/100, 1/2, false⟩]
        ⟨120, [⟨0, 10, SectionType.verse, 0, SectionStyle.jump⟩]⟩
        BeatmapDifficulty.Easy 4 PlayStyle.THUMB (fun _ => 0)).getD 0 default).time = 0 ∧
    ((generateBeatmap
        [⟨0, 1/2, false⟩, ⟨1/100, 1/2, false⟩, ⟨2/100, 1/2, false⟩,
         ⟨3/100, 1/2, false⟩, ⟨4/100, 1/2, false⟩]
        ⟨120, [⟨0, 10, SectionType.verse, 0, SectionStyle.jump⟩]⟩
        BeatmapDifficulty.Easy 4 PlayStyle.THUMB (fun _ => 0)).getD 4 default).time = 4/100 ∧
    ¬((DIFFICULTY_CONFIG BeatmapDifficulty.Easy).minGap ≤ |(0 : ℚ) - 4/100|) := by
  with_unfolding_all decide

/-- C6 amended: every chart `generateBeatmap` obtains from a generation
pass (main or retry) satisfies the min-gap invariant — any two notes with
different start times are at least the active difficulty's `minGap` apart,
which in particular bounds consecutive non-chord notes within one lane;
the only other possible output is the raw fallback chart, which does not
enforce `minGap` (see the counterexample). -/
theorem minGap_amended (onsets : List Onset) (st : SongStructure)
    (difficulty : BeatmapDifficulty) (laneCount : ℕ) (playStyle : PlayStyle)
    (rng : ℕ → ℚ) :
    generateBeatmap onsets st difficulty laneCount playStyle rng =
      generateRawFallback (sortOnsets onsets)
        (if difficulty = BeatmapDifficulty.Titan then 6 else laneCount) ∨
    ∀ m ∈ generateBeatmap onsets st difficulty laneCount playStyle rng,
      ∀ n ∈ generateBeatmap onsets st difficulty laneCount playStyle rng,
        m.time ≠ n.time →
        (DIFFICULTY_CONFIG difficulty).minGap ≤ |m.time - n.time| := by
  have hg : 0 ≤ (DIFFICULTY_CONFIG difficulty).minGap := by
    cases difficulty <;> norm_num [DIFFICULTY_CONFIG]
  have hg' : ∀ c : GenConfig, c.minGap = (DIFFICULTY_CONFIG difficulty).minGap →
      ∀ lc ps i, ∀ m ∈ (runGenerationPass (sortOnsets onsets) st c lc ps difficulty rng i).1,
      ∀ n ∈ (runGenerationPass (sortOnsets onsets) st c lc ps difficulty rng i).1,
        m.time ≠ n.time → (DIFFICULTY_CONFIG difficulty).minGap ≤ |m.time - n.time| := by
    intro c hc lc ps i
    have := runGenerationPass_gapped (sortOnsets onsets) st c lc ps difficulty rng i
      (hc ▸ hg)
    rw [hc] at this
    exact this
  simp only [generateBeatmap]
  split_ifs <;>
    first
      | exact Or.inl rfl
      | · refine Or.inr (hg' _ ?_ _ _ _)
          rfl

lemma compressRating_mono {x y : ℚ} (h : x ≤ y) : compressRating x ≤ compressRating y := by
  unfold compressRating
  split_ifs with hx hy
  · have hxy : (x : ℝ) ≤ y := by exact_mod_cast h
    have hx' : (10 : ℝ) < x := by exact_mod_cast hx
    have hlog : Real.logb 2 ((x : ℝ) - 10 + 1) ≤ Real.logb 2 ((y : ℝ) - 10 + 1) := by
      apply Real.logb_le_logb_of_le (by norm_num : (1 : ℝ) < 2)
      · linarith
      · linarith
    linarith
  · exact absurd (lt_of_lt_of_le hx h) hy
  · rename_i hy
    have hy' : (10 : ℝ) < y := by exact_mod_cast hy
    have hlog : 0 ≤ Real.logb 2 ((y : ℝ) - 10 + 1) := by
      apply Real.logb_nonneg (by norm_num)
      linarith
    have hx' : (x : ℝ) ≤ 10 := by exact_mod_cast le_of_not_lt hx
    linarith
  · exact_mod_cast h

/-- Counterexample to C5 as stated: `calculateDifficultyRating` returns 0 —
outside [1, 20] — for the empty note list; and for fixed duration 14 it is
not non-decreasing in notes-per-second: 28 notes stacked at one instant
(2 notes/s, rating 2.4) outscore 29 notes spread half a second apart
(≈2.07 notes/s but peak window 3, rating 83/70 ≈ 1.19), because the peak
term drops faster than the average term grows. -/
theorem difficultyRating_counterexample :
    calculateDifficultyRating [] 10 = 0 ∧
    ¬(1 ≤ calculateDifficultyRating [] 10) ∧
    ((List.replicate 28 (⟨0, 0, "a", false, true, 0, false, NoteType.NORMAL⟩ : Note)).length : ℚ) / 14 <
      (((List.range 29).map fun (i : ℕ) =>
        (⟨(i : ℚ) / 2, 0, "b", false, true, 0, false, NoteType.NORMAL⟩ : Note)).length : ℚ) / 14 ∧
    calculateDifficultyRating
      ((List.range 29).map fun (i : ℕ) =>
        (⟨(i : ℚ) / 2, 0, "b", false, true, 0, false, NoteType.NORMAL⟩ : Note)) 14 <
    calculateDifficultyRating
      (List.replicate 28 (⟨0, 0, "a", false, true, 0, false, NoteType.NORMAL⟩ : Note)) 14 := by
  have hraw1 : ratingRaw
      (List.replicate 28 (⟨0, 0, "a", false, true, 0, false, NoteType.NORMAL⟩ : Note)) 14 =
      12/5 := by
    with_unfolding_all decide
  have hraw2 : ratingRaw
      ((List.range 29).map fun (i : ℕ) =>
        (⟨(i : ℚ) / 2, 0, "b", false, true, 0, false, NoteType.NORMAL⟩ : Note)) 14 =
      83/70 := by
    with_unfolding_all decide
  have e1 : calculateDifficultyRating
      (List.replicate 28 (⟨0, 0, "a", false, true, 0, false, NoteType.NORMAL⟩ : Note)) 14 =
      ((12/5 : ℚ) : ℝ) := by
    unfold calculateDifficultyRating
    rw [if_neg (by simp), hraw1]
    unfold compressRating
    rw [if_neg (by norm_num)]
    rw [min_eq_right (by push_cast; norm_num), max_eq_right (by push_cast; norm_num)]
  have e2 : calculateDifficultyRating
      ((List.range 29).map fun (i : ℕ) =>
        (⟨(i : ℚ) / 2, 0, "b", false, true, 0, false, NoteType.NORMAL⟩ : Note)) 14 =
      ((83/70 : ℚ) : ℝ) := by
    unfold calculateDifficultyRating
    rw [if_neg (by simp), hraw2]
    unfold compressRating
    rw [if_neg (by norm_num)]
    rw [min_eq_right (by push_cast; norm_num), max_eq_right (by push_cast; norm_num)]
  refine ⟨by simp [calculateDifficultyRating], by simp [calculateDifficultyRating], ?_, ?_⟩
  · simp only [List.length_replicate, List.length_map, List.length_range]
    norm_num
  · rw [e1, e2]
    push_cast
    norm_num

/-- C5 amended: for every non-empty note list and non-zero duration the
displayed rating lies in [1, 20] (the clamp); it is 0 — below the range —
exactly for an empty list or zero duration.  For fixed positive duration
the rating is non-decreasing in notes-per-second provided the peak 1-second
window count does not decrease (raising the note count alone can lower the
rating when the peak density drops, see the counterexample).  Beyond a raw
weighted sum of 10, the value is `10 + 2.5*log2(surplus+1)` clamped into
[1, 20]. -/
theorem difficultyRating_amended (notes notes2 : List Note) (duration : ℚ)
    (h1 : notes ≠ []) (h2 : duration ≠ 0) :
    1 ≤ calculateDifficultyRating notes duration ∧
    calculateDifficultyRating notes duration ≤ 20 ∧
    (notes2 ≠ [] → 0 < duration → notes.length ≤ notes2.length →
      maxWindowNotes ((List.insertionSort (fun a b : Note => a.time ≤ b.time) notes).map
          Note.time) ≤
        maxWindowNotes ((List.insertionSort (fun a b : Note => a.time ≤ b.time) notes2).map
          Note.time) →
      calculateDifficultyRating notes duration ≤ calculateDifficultyRating notes2 duration) ∧
    (10 < ratingRaw notes duration →
      calculateDifficultyRating notes duration =
        max 1 (min 20 (10 + Real.logb 2 ((ratingRaw notes duration : ℝ) - 10 + 1) * 2.5))) := by
  have hne : ¬(notes.length = 0 ∨ duration = 0) := by
    push_neg
    exact ⟨by simpa using h1, h2⟩
  refine ⟨?_, ?_, ?_, ?_⟩
  · unfold calculateDifficultyRating
    rw [if_neg hne]
    exact le_max_left _ _
  · unfold calculateDifficultyRating
    rw [if_neg hne]
    exact max_le (by norm_num) (min_le_left _ _)
  · intro hn2 hd hlen hpeak
    have hne2 : ¬(notes2.length = 0 ∨ duration = 0) := by
      push_neg
      exact ⟨by simpa using hn2, h2⟩
    have hraw : ratingRaw notes duration ≤ ratingRaw notes2 duration := by
      unfold ratingRaw
      have hc : (notes.length : ℚ) ≤ notes2.length := by exact_mod_cast hlen
      have hp : ((maxWindowNotes ((List.insertionSort (fun a b : Note => a.time ≤ b.time)
          notes).map Note.time) : ℕ) : ℚ) ≤
          ((maxWindowNotes ((List.insertionSort (fun a b : Note => a.time ≤ b.time)
          notes2).map Note.time) : ℕ) : ℚ) := by
        exact_mod_cast hpeak
      have hdiv : (notes.length : ℚ) / duration ≤ (notes2.length : ℚ) / duration :=
        div_le_div_of_nonneg_right hc hd.le
      nlinarith [hdiv, hp]
    have hcomp := compressRating_mono hraw
    unfold calculateDifficultyRating
    rw [if_neg hne, if_neg hne2]
    exact max_le_max (le_refl 1) (min_le_min (le_refl 20) hcomp)
  · intro h10
    unfold calculateDifficultyRating
    rw [if_neg hne]
    unfold compressRating
    rw [if_pos h10]

/-- Witness for C5 amended: for a one-note chart over duration 1 the rating
is within [1, 20], and adding a second simultaneous note (which also raises
the peak window count from 1 to 2) does not decrease it. -/
theorem difficultyRating_amended_witness :
    1 ≤ calculateDifficultyRating [⟨0, 0, "a", false, true, 0, false, NoteType.NORMAL⟩] 1 ∧
    calculateDifficultyRating [⟨0, 0, "a", false, true, 0, false, NoteType.NORMAL⟩] 1 ≤ 20 ∧
    calculateDifficultyRating [⟨0, 0, "a", false, true, 0, false, NoteType.NORMAL⟩] 1 ≤
      calculateDifficultyRating [⟨0, 0, "a", false, true, 0, false, NoteType.NORMAL⟩,
        ⟨0, 1, "b", false, true, 0, false, NoteType.NORMAL⟩] 1 := by
  have h := difficultyRating_amended
    [⟨0, 0, "a", false, true, 0, false, NoteType.NORMAL⟩]
    [⟨0, 0, "a", false, true, 0, false, NoteType.NORMAL⟩,
     ⟨0, 1, "b", false, true, 0, false, NoteType.NORMAL⟩] 1
    (by simp) (by norm_num)
  exact ⟨h.1, h.2.1, h.2.2.1 (by simp) (by norm_num) (by norm_num)
    (by with_unfolding_all decide)⟩
